import Mathlib

/-!
Verification of the lenticular-viewer repository's core components against its
design specification: the zigzag geometry generator (`src/js/billboard.js`),
the sweep animator shared by live preview (`src/js/app.js`, `playPreview`) and
GIF export (`src/js/exporter.js`, `GifExporter.export`), and the crop/scale and
frame-capture logic of the export pipeline.

Machine numbers are modelled as real numbers (crop arithmetic, which is purely
rational, uses `ℚ` so it stays executable); `Math.floor` is `Int.floor`.
-/

namespace Lenticular

noncomputable section

/-! ## Geometry generator, from `createZigzagGeometry` in `src/js/billboard.js` -/

/-- `const angleRad = (angle * Math.PI) / 180` -/
def angleRad (angle : ℝ) : ℝ := angle * Real.pi / 180

/-- `const slatWidth = width / slats` -/
def slatWidth (width : ℝ) (slats : ℕ) : ℝ := width / (slats : ℝ)

/-- `const peakDepth = (slatWidth / 2) * Math.tan(angleRad)` -/
def peakDepth (width : ℝ) (slats : ℕ) (angle : ℝ) : ℝ :=
  slatWidth width slats / 2 * Real.tan (angleRad angle)

/-- `const xLeft = (i / slats) * width - width / 2` -/
def xLeftAt (width : ℝ) (slats i : ℕ) : ℝ :=
  (i : ℝ) / (slats : ℝ) * width - width / 2

/-- `const xMid = ((i + 0.5) / slats) * width - width / 2` -/
def xMidAt (width : ℝ) (slats i : ℕ) : ℝ :=
  ((i : ℝ) + 0.5) / (slats : ℝ) * width - width / 2

/-- `const xRight = ((i + 1) / slats) * width - width / 2` -/
def xRightAt (width : ℝ) (slats i : ℕ) : ℝ :=
  ((i : ℝ) + 1) / (slats : ℝ) * width - width / 2

/-- `const uLeft = i / slats` -/
def uLeftAt (slats i : ℕ) : ℝ := (i : ℝ) / (slats : ℝ)

/-- `const uMid = (i + 0.5) / slats` -/
def uMidAt (slats i : ℕ) : ℝ := ((i : ℝ) + 0.5) / (slats : ℝ)

/-- `const uRight = (i + 1) / slats` -/
def uRightAt (slats i : ℕ) : ℝ := ((i : ℝ) + 1) / (slats : ℝ)

/-- The six vertices `leftVertices.push(...)` appends for slat `i`
(two triangles of the left face). -/
def leftVerticesOfSlat (w h : ℝ) (n : ℕ) (a : ℝ) (i : ℕ) : List (ℝ × ℝ × ℝ) :=
  [(xLeftAt w n i, -h / 2, 0),
   (xMidAt w n i, -h / 2, peakDepth w n a),
   (xLeftAt w n i, h / 2, 0),
   (xLeftAt w n i, h / 2, 0),
   (xMidAt w n i, -h / 2, peakDepth w n a),
   (xMidAt w n i, h / 2, peakDepth w n a)]

/-- The six UV pairs `leftUvs.push(...)` appends for slat `i`. -/
def leftUvsOfSlat (n i : ℕ) : List (ℝ × ℝ) :=
  [(uLeftAt n i, 0), (uMidAt n i, 0), (uLeftAt n i, 1),
   (uLeftAt n i, 1), (uMidAt n i, 0), (uMidAt n i, 1)]

/-- The six vertices `rightVertices.push(...)` appends for slat `i`
(two triangles of the right face). -/
def rightVerticesOfSlat (w h : ℝ) (n : ℕ) (a : ℝ) (i : ℕ) : List (ℝ × ℝ × ℝ) :=
  [(xMidAt w n i, -h / 2, peakDepth w n a),
   (xRightAt w n i, -h / 2, 0),
   (xMidAt w n i, h / 2, peakDepth w n a),
   (xMidAt w n i, h / 2, peakDepth w n a),
   (xRightAt w n i, -h / 2, 0),
   (xRightAt w n i, h / 2, 0)]

/-- The six UV pairs `rightUvs.push(...)` appends for slat `i`. -/
def rightUvsOfSlat (n i : ℕ) : List (ℝ × ℝ) :=
  [(uMidAt n i, 0), (uRightAt n i, 0), (uMidAt n i, 1),
   (uMidAt n i, 1), (uRightAt n i, 0), (uRightAt n i, 1)]

/-- The four flat arrays built by `createZigzagGeometry`. -/
structure ZigzagGeometry where
  leftVertices : List (ℝ × ℝ × ℝ)
  leftUvs : List (ℝ × ℝ)
  rightVertices : List (ℝ × ℝ × ℝ)
  rightUvs : List (ℝ × ℝ)

/-- `createZigzagGeometry(width, height, slats, angle)`: the loop
`for (let i = 0; i < slats; i++)` pushes each slat's vertex/UV block in order. -/
def createZigzagGeometry (w h : ℝ) (n : ℕ) (a : ℝ) : ZigzagGeometry where
  leftVertices := (List.range n).flatMap (leftVerticesOfSlat w h n a)
  leftUvs := (List.range n).flatMap (leftUvsOfSlat n)
  rightVertices := (List.range n).flatMap (rightVerticesOfSlat w h n a)
  rightUvs := (List.range n).flatMap (rightUvsOfSlat n)

/-! ## `updateBillboard` in `src/js/app.js` -/

/-- The billboard parameters held in `this.settings`. -/
structure Settings where
  width : ℝ
  height : ℝ
  slats : ℕ
  angle : ℝ

/-- `updateBillboard()` in `src/js/app.js`: disposes the old group and calls
`createBillboardGroup(settings...)`, which immediately calls
`createZigzagGeometry` — there is no validation branch on any path. -/
def updateBillboard (s : Settings) : ZigzagGeometry :=
  createZigzagGeometry s.width s.height s.slats s.angle

/-! ## Sweep animator: `playPreview` in `src/js/app.js` -/

/-- `const sweepAngle = Math.PI * (this.sweepAngle / 180)` (preview). -/
def previewSweepRad (sweepDeg : ℝ) : ℝ := Real.pi * (sweepDeg / 180)

/-- `const angle = -Math.cos(progress * Math.PI * 2) * (sweepAngle / 2)` (preview). -/
def previewAngle (progress sweepDeg : ℝ) : ℝ :=
  -Real.cos (progress * Real.pi * 2) * (previewSweepRad sweepDeg / 2)

/-- `camera.position.x = Math.sin(angle) * distance;
camera.position.z = Math.cos(angle) * distance` (preview). -/
def previewCameraXZ (progress sweepDeg dist : ℝ) : ℝ × ℝ :=
  (Real.sin (previewAngle progress sweepDeg) * dist,
   Real.cos (previewAngle progress sweepDeg) * dist)

/-! ## Export sampler: `GifExporter.export` in `src/js/exporter.js` -/

/-- `const sweepAngle = Math.PI * (sweepAngleDegrees / 180)` (exporter). -/
def exporterSweepRad (sweepDeg : ℝ) : ℝ := Real.pi * (sweepDeg / 180)

/-- `const angle = -Math.cos(progress * Math.PI * 2) * (sweepAngle / 2)` (exporter). -/
def exporterAngle (progress sweepDeg : ℝ) : ℝ :=
  -Real.cos (progress * Real.pi * 2) * (exporterSweepRad sweepDeg / 2)

/-- `camera.position.x = Math.sin(angle) * distance;
camera.position.z = Math.cos(angle) * distance` (exporter). -/
def exporterCameraXZ (progress sweepDeg dist : ℝ) : ℝ × ℝ :=
  (Real.sin (exporterAngle progress sweepDeg) * dist,
   Real.cos (exporterAngle progress sweepDeg) * dist)

/-- `const frameCount = 120` — a literal inside `export`, not a parameter. -/
def frameCount : ℕ := 120

/-- `const duration = 3000 / (speed / 5)` -/
def exportDuration (speed : ℝ) : ℝ := 3000 / (speed / 5)

/-- Azimuth used for export frame `i`: `const progress = i / frameCount`. -/
def exporterFrameAngle (sweepDeg : ℝ) (i : ℕ) : ℝ :=
  exporterAngle ((i : ℝ) / (frameCount : ℝ)) sweepDeg

/-- The `(progress, delay)` of each frame handed to `gif.addFrame` in loop
order: `delay: duration / frameCount`. -/
def appendedFrames (speed : ℝ) : List (ℝ × ℝ) :=
  (List.range frameCount).map fun i : ℕ =>
    ((i : ℝ) / (frameCount : ℝ), exportDuration speed / (frameCount : ℝ))

/-! ## Export control flow (camera state across a failing export)

The loop body of `GifExporter.export` sets the camera to the frame's sweep
position, then calls `renderer.render` and `gif.addFrame`.  A throw from
either aborts the `Promise` executor (rejecting the promise); the
post-loop reset `camera.position.x = Math.sin(originalAzimuth) * distance; ...`
runs only when the whole loop completes — there is no try/finally.  `failAt`
marks the frame at which the renderer/encoder throws (`none` = no failure).
The state is the camera's `(x, z)` paired with "an exception has aborted
the executor". -/

def exportStep (sweepDeg dist : ℝ) (failAt : Option ℕ) (st : (ℝ × ℝ) × Bool) (i : ℕ) :
    (ℝ × ℝ) × Bool :=
  if st.2 then st
  else
    let cam := (Real.sin (exporterFrameAngle sweepDeg i) * dist,
                Real.cos (exporterFrameAngle sweepDeg i) * dist)
    if failAt = some i then (cam, true) else (cam, false)

/-- The post-loop camera reset: it is the next statement after the capture
loop, so it runs only when no exception aborted the executor. -/
def finishExport (origAzimuth dist : ℝ) (r : (ℝ × ℝ) × Bool) : (ℝ × ℝ) × Bool :=
  if r.2 then r
  else ((Real.sin origAzimuth * dist, Real.cos origAzimuth * dist), false)

/-- Final camera `(x, z)` and failure flag of one `export` call starting from
azimuth `origAzimuth` at orbit radius `dist`. -/
def exportRun (origAzimuth sweepDeg dist : ℝ) (failAt : Option ℕ) : (ℝ × ℝ) × Bool :=
  finishExport origAzimuth dist
    ((List.range frameCount).foldl (exportStep sweepDeg dist failAt)
      ((Real.sin origAzimuth * dist, Real.cos origAzimuth * dist), false))

/-! ## Spec-side definitions for comparison -/

/-- u-interval spanned by slat `i`'s left-face UV pairs (their u components
are exactly `uLeft` and `uMid`). -/
def leftFaceUSpan (n i : ℕ) : Set ℝ := Set.Icc (uLeftAt n i) (uMidAt n i)

/-- u-interval spanned by slat `i`'s right-face UV pairs (their u components
are exactly `uMid` and `uRight`). -/
def rightFaceUSpan (n i : ℕ) : Set ℝ := Set.Icc (uMidAt n i) (uRightAt n i)

/-- Modelled from the spec (§4.1): the left edge of segment `i`, with the
board divided into `n` equal segments of width `w/n`, centered at 0. -/
def segLeftEdge (w : ℝ) (n i : ℕ) : ℝ := (i : ℝ) * (w / (n : ℝ)) - w / 2

/-- Modelled from the spec (§4.1): the midpoint of segment `i`. -/
def segMidpoint (w : ℝ) (n i : ℕ) : ℝ := segLeftEdge w n i + w / (n : ℝ) / 2

/-- Modelled from the spec (§4.1): the right edge of segment `i`. -/
def segRightEdge (w : ℝ) (n i : ℕ) : ℝ := segLeftEdge w n i + w / (n : ℝ)

end

/-! ## Crop and scale math of `GifExporter.export` (rational, executable) -/

/-- The crop rectangle and output size computed at the top of `export`. -/
structure CropResult where
  cropWidth : ℚ
  cropHeight : ℚ
  cropX : ℚ
  cropY : ℚ
  outputWidth : ℚ
  outputHeight : ℚ
  deriving DecidableEq

/-- `const scale = Math.min(1, maxWidth / cropWidth); outputWidth =
Math.floor(cropWidth * scale); outputHeight = Math.floor(cropHeight * scale)`. -/
def finishCrop (cropWidth cropHeight cropX cropY maxW : ℚ) : CropResult :=
  let scale : ℚ := min 1 (maxW / cropWidth)
  { cropWidth := cropWidth, cropHeight := cropHeight, cropX := cropX, cropY := cropY,
    outputWidth := (⌊cropWidth * scale⌋ : ℚ), outputHeight := (⌊cropHeight * scale⌋ : ℚ) }

/-- The crop branch of `export`: `W`,`H` are the canvas pixel dimensions,
`bw`,`bh` the billboard dimensions, `maxW` the `maxWidth` parameter
(default 700). -/
def computeCrop (W H bw bh maxW : ℚ) : CropResult :=
  let billboardAspect := bw / bh
  let viewportAspect := W / H
  if billboardAspect < viewportAspect then
    let cropHeight := H
    let cropWidth : ℚ := (⌊H * billboardAspect⌋ : ℚ)
    finishCrop cropWidth cropHeight ((⌊(W - cropWidth) / 2⌋ : ℚ)) 0 maxW
  else
    let cropWidth := W
    let cropHeight : ℚ := (⌊W / billboardAspect⌋ : ℚ)
    finishCrop cropWidth cropHeight 0 ((⌊(H - cropHeight) / 2⌋ : ℚ)) maxW

/-! ## Helper lemmas -/

lemma length_flatMap_range {α : Type} (f : ℕ → List α) (c n : ℕ)
    (hf : ∀ i, (f i).length = c) : ((List.range n).flatMap f).length = c * n := by
  induction n with
  | zero => rfl
  | succ n ih =>
    rw [List.range_succ, List.flatMap_append, List.length_append, ih]
    simp [hf n, Nat.mul_succ]

lemma foldl_exportStep_failed (sweepDeg dist : ℝ) (failAt : Option ℕ) (cam : ℝ × ℝ)
    (l : List ℕ) : l.foldl (exportStep sweepDeg dist failAt) (cam, true) = (cam, true) := by
  induction l with
  | nil => rfl
  | cons x xs ih =>
    rw [List.foldl_cons]
    simpa [exportStep] using ih

lemma natCastPos_of_one_le {n : ℕ} (hn : 1 ≤ n) : (0 : ℝ) < (n : ℝ) :=
  Nat.cast_pos.mpr hn

lemma uLeftAt_mem {n i : ℕ} (hn : 1 ≤ n) (hi : i < n) : uLeftAt n i ∈ Set.Icc (0 : ℝ) 1 := by
  have hn' := natCastPos_of_one_le hn
  have hi' : (i : ℝ) ≤ (n : ℝ) := by exact_mod_cast hi.le
  exact ⟨div_nonneg (Nat.cast_nonneg i) hn'.le, (div_le_one hn').mpr hi'⟩

lemma uMidAt_mem {n i : ℕ} (hn : 1 ≤ n) (hi : i < n) : uMidAt n i ∈ Set.Icc (0 : ℝ) 1 := by
  have hn' := natCastPos_of_one_le hn
  have hi' : (i : ℝ) + 1 ≤ (n : ℝ) := by exact_mod_cast hi
  constructor
  · apply div_nonneg _ hn'.le
    positivity
  · apply (div_le_one hn').mpr
    have : (i : ℝ) + 0.5 ≤ (i : ℝ) + 1 := by norm_num
    linarith

lemma uRightAt_mem {n i : ℕ} (hn : 1 ≤ n) (hi : i < n) : uRightAt n i ∈ Set.Icc (0 : ℝ) 1 := by
  have hn' := natCastPos_of_one_le hn
  have hi' : (i : ℝ) + 1 ≤ (n : ℝ) := by exact_mod_cast hi
  constructor
  · apply div_nonneg _ hn'.le
    positivity
  · exact (div_le_one hn').mpr hi'

lemma uLeftAt_le_uMidAt {n : ℕ} (hn : 1 ≤ n) (i : ℕ) : uLeftAt n i ≤ uMidAt n i := by
  unfold uLeftAt uMidAt
  exact (div_le_div_right (natCastPos_of_one_le hn)).mpr (by norm_num)

lemma uMidAt_le_uRightAt {n : ℕ} (hn : 1 ≤ n) (i : ℕ) : uMidAt n i ≤ uRightAt n i := by
  unfold uMidAt uRightAt
  exact (div_le_div_right (natCastPos_of_one_le hn)).mpr (by norm_num)

lemma spans_union_eq_Icc {n : ℕ} (hn : 1 ≤ n) (i : ℕ) :
    leftFaceUSpan n i ∪ rightFaceUSpan n i =
      Set.Icc ((i : ℝ) / (n : ℝ)) (((i : ℝ) + 1) / (n : ℝ)) :=
  Set.Icc_union_Icc_eq_Icc (uLeftAt_le_uMidAt hn i) (uMidAt_le_uRightAt hn i)

lemma biUnion_uniform_Icc (n : ℕ) (hn : 1 ≤ n) :
    (⋃ i ∈ Finset.range n, Set.Icc ((i : ℝ) / (n : ℝ)) (((i : ℝ) + 1) / (n : ℝ))) =
      Set.Icc (0 : ℝ) 1 := by
  have hn' : (0 : ℝ) < (n : ℝ) := natCastPos_of_one_le hn
  apply Set.Subset.antisymm
  · intro x hx
    rcases Set.mem_iUnion₂.1 hx with ⟨i, hi, hmem⟩
    rw [Finset.mem_range] at hi
    rcases hmem with ⟨h1, h2⟩
    constructor
    · exact le_trans (div_nonneg (Nat.cast_nonneg i) hn'.le) h1
    · refine le_trans h2 ?_
      rw [div_le_one hn']
      exact_mod_cast hi
  · intro x hx
    rcases hx with ⟨hx0, hx1⟩
    have hkn : min (⌊x * (n : ℝ)⌋₊) (n - 1) < n :=
      lt_of_le_of_lt (min_le_right _ _) (by omega)
    apply Set.mem_iUnion₂.2
    refine ⟨min (⌊x * (n : ℝ)⌋₊) (n - 1), Finset.mem_range.2 hkn, ?_, ?_⟩
    · rw [div_le_iff₀ hn']
      have hkfloor : ((min (⌊x * (n : ℝ)⌋₊) (n - 1) : ℕ) : ℝ) ≤ (⌊x * (n : ℝ)⌋₊ : ℝ) := by
        exact_mod_cast min_le_left _ _
      exact le_trans hkfloor (Nat.floor_le (by positivity))
    · rw [le_div_iff₀ hn']
      by_cases hcase : ⌊x * (n : ℝ)⌋₊ ≤ n - 1
      · rw [min_eq_left hcase]
        have hlt := Nat.lt_floor_add_one (x * (n : ℝ))
        linarith
      · rw [min_eq_right (le_of_not_le hcase)]
        have hxn : x * (n : ℝ) ≤ (n : ℝ) := by
          calc x * (n : ℝ) ≤ 1 * (n : ℝ) := mul_le_mul_of_nonneg_right hx1 hn'.le
            _ = (n : ℝ) := one_mul _
        have hsub : ((n - 1 : ℕ) : ℝ) + 1 = (n : ℝ) := by
          rw [Nat.cast_sub hn]
          ring
        rw [hsub]
        exact hxn

lemma leftFaceUSpans_disjoint {n : ℕ} (hn : 1 ≤ n) {i j : ℕ} (hij : i < j) :
    leftFaceUSpan n i ∩ leftFaceUSpan n j = ∅ := by
  have hn' : (0 : ℝ) < (n : ℝ) := natCastPos_of_one_le hn
  unfold leftFaceUSpan uLeftAt uMidAt
  rw [Set.Icc_inter_Icc]
  apply Set.Icc_eq_empty
  have hmax : max ((i : ℝ) / (n : ℝ)) ((j : ℝ) / (n : ℝ)) = (j : ℝ) / (n : ℝ) := by
    apply max_eq_right
    apply (div_le_div_right hn').mpr
    exact_mod_cast hij.le
  have hmin : min (((i : ℝ) + 0.5) / (n : ℝ)) (((j : ℝ) + 0.5) / (n : ℝ)) =
      ((i : ℝ) + 0.5) / (n : ℝ) := by
    apply min_eq_left
    apply (div_le_div_right hn').mpr
    have : (i : ℝ) ≤ (j : ℝ) := by exact_mod_cast hij.le
    linarith
  rw [hmax, hmin]
  apply not_le_of_lt
  apply (div_lt_div_right hn').mpr
  have : (i : ℝ) + 1 ≤ (j : ℝ) := by exact_mod_cast hij
  linarith

lemma finishCrop_outputWidth_le (cw ch cx cy maxW : ℚ) (hcw : 0 ≤ cw) (hmax : 0 ≤ maxW) :
    (finishCrop cw ch cx cy maxW).outputWidth ≤ maxW := by
  rcases eq_or_lt_of_le hcw with heq | hpos
  · simp [finishCrop, ← heq, hmax]
  · have hle : cw * min 1 (maxW / cw) ≤ maxW := by
      calc cw * min 1 (maxW / cw) ≤ cw * (maxW / cw) :=
            mul_le_mul_of_nonneg_left (min_le_right _ _) hcw
        _ = maxW := by
            rw [← mul_div_assoc]
            exact mul_div_cancel_left₀ maxW hpos.ne'
    exact le_trans (Int.floor_le (cw * min 1 (maxW / cw))) hle

/-! ## Claim theorems -/

/-- Claim C1: for every progress `p ∈ [0,1)` and sweep angle `S`, the export
frame sampler and the live preview driver compute the same azimuth,
`-cos(p·2π)·((S·π/180)/2)`, and the same camera position
`(sin(azimuth)·distance, cos(azimuth)·distance)`. -/
theorem export_preview_sampler_agree (p S d : ℝ) (hp0 : 0 ≤ p) (hp1 : p < 1) :
    exporterAngle p S = previewAngle p S ∧
    exporterAngle p S = -Real.cos (p * (2 * Real.pi)) * (S * (Real.pi / 180) / 2) ∧
    exporterCameraXZ p S d = previewCameraXZ p S d := by
  refine ⟨rfl, ?_, rfl⟩
  have harg : p * Real.pi * 2 = p * (2 * Real.pi) := by ring
  unfold exporterAngle exporterSweepRad
  rw [harg]
  ring

/-- Witness for C1 at `p = 0`, `S = 110`, `d = 5`. -/
theorem export_preview_sampler_agree_witness :
    exporterAngle 0 110 = previewAngle 0 110 ∧
    exporterCameraXZ 0 110 5 = previewCameraXZ 0 110 5 := by
  have h := export_preview_sampler_agree 0 110 5 (by norm_num) (by norm_num)
  exact ⟨h.1, h.2.2⟩

/-- Claim C6: the sweep closes its cycle, `sweepAngle(0,S) = sweepAngle(1,S)`,
with value the left extreme `-sweepRad/2`, and the extremes are symmetric,
`sweepAngle(0.5,S) = -sweepAngle(0,S)`. -/
theorem sweep_cycle_closes_and_symmetric (S : ℝ) :
    previewAngle 0 S = previewAngle 1 S ∧
    previewAngle (1 / 2) S = -(previewAngle 0 S) ∧
    previewAngle 0 S = -(previewSweepRad S / 2) := by
  have h0 : (0 : ℝ) * Real.pi * 2 = 0 := by ring
  have h1 : (1 : ℝ) * Real.pi * 2 = 2 * Real.pi := by ring
  have h2 : (1 / 2 : ℝ) * Real.pi * 2 = Real.pi := by ring
  unfold previewAngle
  rw [h0, h1, h2, Real.cos_zero, Real.cos_two_pi, Real.cos_pi]
  norm_num

/-- Claim C10: every export appends exactly 120 frames, at progress `i/120`
for `i = 0..119` in increasing order, each with delay
`(3000 / (speed/5)) / 120`; the frame count is the literal 120, independent of
every caller-supplied argument. -/
theorem export_appends_120_frames (speed : ℝ) (i j : ℕ) (hij : i < j) (hj : j < 120) :
    (appendedFrames speed).length = 120 ∧
    frameCount = 120 ∧
    (appendedFrames speed)[i]? =
      some ((i : ℝ) / 120, 3000 / (speed / 5) / 120) ∧
    (i : ℝ) / 120 < (j : ℝ) / 120 := by
  have hi : i < 120 := hij.trans hj
  refine ⟨?_, rfl, ?_, ?_⟩
  · unfold appendedFrames frameCount
    rw [List.length_map, List.length_range]
  · unfold appendedFrames exportDuration frameCount
    rw [List.getElem?_map, List.getElem?_range hi]
    norm_num
  · have hij' : (i : ℝ) < (j : ℝ) := by exact_mod_cast hij
    have h120 : (0 : ℝ) < 120 := by norm_num
    exact div_lt_div_of_pos_right hij' h120

/-- Witness for C10 at `speed = 5`, frames `i = 0 < j = 1`. -/
theorem export_appends_120_frames_witness :
    (appendedFrames 5).length = 120 ∧ (appendedFrames 5)[0]? = some (0, 25) := by
  have h := export_appends_120_frames 5 0 1 (by norm_num) (by norm_num)
  refine ⟨h.1, ?_⟩
  rw [h.2.2.1]
  norm_num

/-- Claim C2 evaluated at the failing input: when the renderer throws at
frame 0 (sweep 180°, orbit distance 1, original azimuth 0), the export is
surfaced as failed, but the camera is left at the frame-0 sweep position
`(-1, 0)` instead of being restored to the original position `(0, 1)` —
the post-loop reset never runs, since there is no try/finally. -/
theorem export_failure_leaves_camera_unrestored :
    (exportRun 0 180 1 (some 0)).2 = true ∧
    (exportRun 0 180 1 (some 0)).1 = (-1, 0) ∧
    (Real.sin 0 * 1, Real.cos 0 * 1) = ((0 : ℝ), (1 : ℝ)) ∧
    (exportRun 0 180 1 (some 0)).1 ≠ (Real.sin 0 * 1, Real.cos 0 * 1) := by
  have hang : exporterFrameAngle 180 0 = -(Real.pi / 2) := by
    unfold exporterFrameAngle exporterAngle exporterSweepRad frameCount
    rw [show ((0 : ℕ) : ℝ) / ((120 : ℕ) : ℝ) * Real.pi * 2 = 0 by norm_num]
    rw [Real.cos_zero]
    ring_nf
  have hcam : (Real.sin (exporterFrameAngle 180 0) * 1, Real.cos (exporterFrameAngle 180 0) * 1) =
      ((-1 : ℝ), (0 : ℝ)) := by
    rw [hang]
    simp
  have hrun : exportRun 0 180 1 (some 0) = ((-1, 0), true) := by
    unfold exportRun frameCount
    rw [show (120 : ℕ) = 119 + 1 from rfl, List.range_succ_eq_map, List.foldl_cons]
    have hstep : exportStep 180 1 (some 0) ((Real.sin 0 * 1, Real.cos 0 * 1), false) 0 =
        (((-1 : ℝ), (0 : ℝ)), true) := by
      unfold exportStep
      simpa using hcam
    rw [hstep, foldl_exportStep_failed]
    rfl
  rw [hrun]
  refine ⟨rfl, rfl, by simp, ?_⟩
  simp [Prod.ext_iff]

/-- Counterexample to claim C4: the invalid configuration
`width 3, height 1.5, slats 50, angle 135°` (angle ≥ 90°) is not rejected —
`updateBillboard` still invokes the geometry generator, which emits all
`6·50 = 300` left-face vertex rows with a degenerate negative peak depth. -/
theorem invalid_angle_reaches_generator :
    ¬ ((135 : ℝ) < 90) ∧
    (updateBillboard ⟨3, 1.5, 50, 135⟩).leftVertices.length = 300 ∧
    peakDepth 3 50 135 < 0 := by
  refine ⟨by norm_num, ?_, ?_⟩
  · have h : (updateBillboard ⟨3, 1.5, 50, 135⟩).leftVertices.length = 6 * 50 :=
      length_flatMap_range _ 6 50 fun i => rfl
    simpa using h
  · have hA : angleRad 135 = Real.pi - Real.pi / 4 := by
      unfold angleRad
      ring
    unfold peakDepth slatWidth
    rw [hA, Real.tan_pi_sub, Real.tan_pi_div_four]
    norm_num

/-- Claim C4 (amended): no validation exists — `updateBillboard` invokes the
geometry generator unconditionally on whatever the current settings are, so
for every settings value (valid or not) the generator runs and produces the
full `slats`-segment geometry. -/
theorem updateBillboard_always_generates (s : Settings) :
    (updateBillboard s).leftVertices.length = 6 * s.slats ∧
    (updateBillboard s).rightVertices.length = 6 * s.slats :=
  ⟨length_flatMap_range _ 6 s.slats fun i => rfl,
   length_flatMap_range _ 6 s.slats fun i => rfl⟩

/-- Claim C5: for every valid configuration the generator produces exactly
`slatCount · 2` triangles (`3·(2·n)` vertex rows) in each face set, and every
emitted UV coordinate lies in `[0,1]`. -/
theorem zigzag_counts_and_uv_bounds (w h : ℝ) (n : ℕ) (a : ℝ)
    (hw : 0 < w) (hh : 0 < h) (hn : 1 ≤ n) (ha0 : 0 < a) (ha90 : a < 90) :
    (createZigzagGeometry w h n a).leftVertices.length = 3 * (2 * n) ∧
    (createZigzagGeometry w h n a).rightVertices.length = 3 * (2 * n) ∧
    (∀ uv ∈ (createZigzagGeometry w h n a).leftUvs,
      uv.1 ∈ Set.Icc (0 : ℝ) 1 ∧ uv.2 ∈ Set.Icc (0 : ℝ) 1) ∧
    (∀ uv ∈ (createZigzagGeometry w h n a).rightUvs,
      uv.1 ∈ Set.Icc (0 : ℝ) 1 ∧ uv.2 ∈ Set.Icc (0 : ℝ) 1) := by
  have h01 : (0 : ℝ) ∈ Set.Icc (0 : ℝ) 1 := by norm_num
  have h11 : (1 : ℝ) ∈ Set.Icc (0 : ℝ) 1 := by norm_num
  refine ⟨?_, ?_, ?_, ?_⟩
  · rw [show 3 * (2 * n) = 6 * n by ring]
    exact length_flatMap_range (leftVerticesOfSlat w h n a) 6 n fun _ => rfl
  · rw [show 3 * (2 * n) = 6 * n by ring]
    exact length_flatMap_range (rightVerticesOfSlat w h n a) 6 n fun _ => rfl
  · intro uv hm
    rcases List.mem_flatMap.1 hm with ⟨i, hi, hmem⟩
    rw [List.mem_range] at hi
    simp only [leftUvsOfSlat, List.mem_cons, List.not_mem_nil, or_false] at hmem
    rcases hmem with rfl | rfl | rfl | rfl | rfl | rfl <;>
      exact ⟨by first
        | exact uLeftAt_mem hn hi
        | exact uMidAt_mem hn hi, by assumption⟩
  · intro uv hm
    rcases List.mem_flatMap.1 hm with ⟨i, hi, hmem⟩
    rw [List.mem_range] at hi
    simp only [rightUvsOfSlat, List.mem_cons, List.not_mem_nil, or_false] at hmem
    rcases hmem with rfl | rfl | rfl | rfl | rfl | rfl <;>
      exact ⟨by first
        | exact uMidAt_mem hn hi
        | exact uRightAt_mem hn hi, by assumption⟩

/-- Witness for C5 at `(width, height, slats, angle) = (2, 1.5, 20, 45)`. -/
theorem zigzag_counts_and_uv_bounds_witness :
    (createZigzagGeometry 2 (1.5 : ℝ) 20 45).leftVertices.length = 3 * (2 * 20) :=
  (zigzag_counts_and_uv_bounds 2 1.5 20 45 (by norm_num) (by norm_num) (by norm_num)
    (by norm_num) (by norm_num)).1

/-- Claim C7: for fixed positive width and slat count, `peakDepth` is strictly
increasing in the angle over `(0, 90)` and tends to 0 as the angle tends to 0;
at width 2, 20 slats, 45° it equals 0.05. -/
theorem peakDepth_monotone_limit_value (w : ℝ) (n : ℕ) (hw : 0 < w) (hn : 1 ≤ n) :
    StrictMonoOn (fun a => peakDepth w n a) (Set.Ioo (0 : ℝ) 90) ∧
    Filter.Tendsto (fun a => peakDepth w n a) (nhdsWithin 0 (Set.Ioi 0)) (nhds 0) ∧
    peakDepth 2 20 45 = 0.05 := by
  have hn' : (0 : ℝ) < (n : ℝ) := natCastPos_of_one_le hn
  have hc : 0 < slatWidth w n / 2 := by
    unfold slatWidth
    positivity
  refine ⟨?_, ?_, ?_⟩
  · intro x hx y hy hxy
    have hx0 : 0 ≤ angleRad x := by
      unfold angleRad
      have := hx.1.le
      positivity
    have hy2 : angleRad y < Real.pi / 2 := by
      unfold angleRad
      rw [show Real.pi / 2 = 90 * Real.pi / 180 by ring]
      exact div_lt_div_of_pos_right
        (mul_lt_mul_of_pos_right hy.2 Real.pi_pos) (by norm_num)
    have hxy' : angleRad x < angleRad y := by
      unfold angleRad
      exact div_lt_div_of_pos_right
        (mul_lt_mul_of_pos_right hxy Real.pi_pos) (by norm_num)
    have htan := Real.tan_lt_tan_of_nonneg_of_lt_pi_div_two hx0 hy2 hxy'
    exact mul_lt_mul_of_pos_left htan hc
  · have h1 : ContinuousAt (fun a : ℝ => a * Real.pi / 180) 0 := by
      fun_prop
    have h2 : ContinuousAt Real.tan ((0 : ℝ) * Real.pi / 180) := by
      apply Real.continuousAt_tan.mpr
      norm_num
    have h3 : ContinuousAt (Real.tan ∘ fun a : ℝ => a * Real.pi / 180) 0 :=
      ContinuousAt.comp h2 h1
    have hcont : ContinuousAt (fun a : ℝ => peakDepth w n a) 0 := by
      unfold peakDepth angleRad
      exact ContinuousAt.mul continuousAt_const h3
    have h0 : peakDepth w n 0 = 0 := by
      unfold peakDepth angleRad
      norm_num
    have ht : Filter.Tendsto (fun a => peakDepth w n a) (nhdsWithin 0 (Set.Ioi 0))
        (nhds (peakDepth w n 0)) :=
      hcont.tendsto.mono_left nhdsWithin_le_nhds
    simpa [h0] using ht
  · have h45 : angleRad 45 = Real.pi / 4 := by
      unfold angleRad
      ring
    unfold peakDepth slatWidth
    rw [h45, Real.tan_pi_div_four]
    norm_num

/-- Witness for C7 at `w = 2`, `n = 20`. -/
theorem peakDepth_monotone_limit_value_witness : peakDepth 2 20 45 = 0.05 :=
  (peakDepth_monotone_limit_value 2 20 (by norm_num) (by norm_num)).2.2

/-- Claim C8: for positive frame dimensions and a positive billboard aspect,
the crop rectangle fits inside the frame (`cropWidth ≤ W`, `cropHeight ≤ H`,
`cropX, cropY ≥ 0`) and `outputWidth ≤ maxWidth`; for billboard aspect 2.0 and
an 800×600 surface the result is a top/bottom crop with `cropWidth = 800`,
`cropHeight = 400`, `cropX = 0`, `cropY = 100`. -/
theorem crop_bounds_and_scenario_D (W H bw bh maxW : ℚ)
    (hW : 0 < W) (hH : 0 < H) (hbw : 0 < bw) (hbh : 0 < bh) (hmax : 0 ≤ maxW) :
    ((computeCrop W H bw bh maxW).cropWidth ≤ W ∧
     (computeCrop W H bw bh maxW).cropHeight ≤ H ∧
     0 ≤ (computeCrop W H bw bh maxW).cropX ∧
     0 ≤ (computeCrop W H bw bh maxW).cropY ∧
     (computeCrop W H bw bh maxW).outputWidth ≤ maxW) ∧
    computeCrop 800 600 2 1 700 = ⟨800, 400, 0, 100, 700, 350⟩ := by
  have hAs : 0 < bw / bh := div_pos hbw hbh
  constructor
  · simp only [computeCrop]
    split_ifs with hA
    · -- viewport wider than billboard: crop sides
      have h1 : H * (bw / bh) < W := by
        have hmul := mul_lt_mul_of_pos_left hA hH
        rwa [mul_comm H (W / H), div_mul_cancel₀ W hH.ne'] at hmul
      have hcw0 : (0 : ℚ) ≤ (⌊H * (bw / bh)⌋ : ℚ) := by
        have : (0 : ℤ) ≤ ⌊H * (bw / bh)⌋ :=
          Int.floor_nonneg.2 (mul_nonneg hH.le hAs.le)
        exact_mod_cast this
      have hcwW : ((⌊H * (bw / bh)⌋ : ℚ)) ≤ W :=
        le_of_lt (lt_of_le_of_lt (Int.floor_le _) h1)
      refine ⟨by simpa [finishCrop] using hcwW, by simp [finishCrop], ?_, ?_, ?_⟩
      · have : (0 : ℤ) ≤ ⌊(W - (⌊H * (bw / bh)⌋ : ℚ)) / 2⌋ :=
          Int.floor_nonneg.2 (by linarith)
        simp only [finishCrop]
        exact_mod_cast this
      · simp [finishCrop]
      · exact finishCrop_outputWidth_le _ _ _ _ _ hcw0 hmax
    · -- viewport taller than billboard: crop top/bottom
      have hWA : W / (bw / bh) ≤ H := by
        have h2 : W ≤ (bw / bh) * H := (div_le_iff₀ hH).1 (not_lt.1 hA)
        rw [div_le_iff₀ hAs, mul_comm]
        exact h2
      have hch0 : (0 : ℚ) ≤ (⌊W / (bw / bh)⌋ : ℚ) := by
        have : (0 : ℤ) ≤ ⌊W / (bw / bh)⌋ :=
          Int.floor_nonneg.2 (div_nonneg hW.le hAs.le)
        exact_mod_cast this
      have hchH : ((⌊W / (bw / bh)⌋ : ℚ)) ≤ H := le_trans (Int.floor_le _) hWA
      refine ⟨by simp [finishCrop], by simpa [finishCrop] using hchH, ?_, ?_, ?_⟩
      · simp [finishCrop]
      · have : (0 : ℤ) ≤ ⌊(H - (⌊W / (bw / bh)⌋ : ℚ)) / 2⌋ :=
          Int.floor_nonneg.2 (by linarith)
        simp only [finishCrop]
        exact_mod_cast this
      · exact finishCrop_outputWidth_le _ _ _ _ _ hW.le hmax
  · have hcond : ¬ ((2 : ℚ) / 1 < (800 : ℚ) / 600) := by norm_num
    simp only [computeCrop]
    rw [if_neg hcond]
    rw [show (800 : ℚ) / ((2 : ℚ) / 1) = ((400 : ℤ) : ℚ) from by norm_num,
      Int.floor_intCast]
    rw [show ((600 : ℚ) - ((400 : ℤ) : ℚ)) / 2 = ((100 : ℤ) : ℚ) from by norm_num,
      Int.floor_intCast]
    simp only [finishCrop]
    rw [show min (1 : ℚ) (700 / (800 : ℚ)) = 7 / 8 from by norm_num]
    rw [show (800 : ℚ) * (7 / 8) = ((700 : ℤ) : ℚ) from by norm_num, Int.floor_intCast]
    rw [show ((400 : ℤ) : ℚ) * (7 / 8) = ((350 : ℤ) : ℚ) from by norm_num,
      Int.floor_intCast]
    norm_num [CropResult.mk.injEq]

/-- Witness for C8 at the scenario-D input: frame 800×600, billboard 2×1,
max width 700. -/
theorem crop_bounds_and_scenario_D_witness :
    (computeCrop 800 600 2 1 700).cropWidth ≤ 800 ∧
    computeCrop 800 600 2 1 700 = ⟨800, 400, 0, 100, 700, 350⟩ := by
  have h := crop_bounds_and_scenario_D 800 600 2 1 700 (by norm_num) (by norm_num)
    (by norm_num) (by norm_num) (by norm_num)
  exact ⟨h.1.1, h.2⟩

/-- Claim C9: segment `i` of the left-face set consists of exactly the two
triangles `(xLeft, −h/2, 0), (xMid, −h/2, peakDepth), (xLeft, +h/2, 0)` and
`(xLeft, +h/2, 0), (xMid, −h/2, peakDepth), (xMid, +h/2, peakDepth)`, where
`xLeft`/`xMid` are the segment's left edge and midpoint in board-local X
centered at 0; for `slatCount = 1`, `width = 2` each side has exactly
2 triangles with `xLeft = −1` and `xRight = +1`. -/
theorem left_face_triangles_match_spec (w h : ℝ) (n : ℕ) (a : ℝ)
    (hw : 0 < w) (hh : 0 < h) (hn : 1 ≤ n) (ha0 : 0 < a) (ha90 : a < 90)
    (i : ℕ) (hi : i < n) :
    leftVerticesOfSlat w h n a i =
      [(segLeftEdge w n i, -h / 2, 0),
       (segMidpoint w n i, -h / 2, peakDepth w n a),
       (segLeftEdge w n i, h / 2, 0),
       (segLeftEdge w n i, h / 2, 0),
       (segMidpoint w n i, -h / 2, peakDepth w n a),
       (segMidpoint w n i, h / 2, peakDepth w n a)] ∧
    (createZigzagGeometry w h n a).leftVertices =
      (List.range n).flatMap (leftVerticesOfSlat w h n a) ∧
    (createZigzagGeometry 2 h 1 a).leftVertices.length = 3 * 2 ∧
    (createZigzagGeometry 2 h 1 a).rightVertices.length = 3 * 2 ∧
    xLeftAt 2 1 0 = -1 ∧
    xRightAt 2 1 0 = 1 := by
  have hL : xLeftAt w n i = segLeftEdge w n i := by
    unfold xLeftAt segLeftEdge
    ring
  have hM : xMidAt w n i = segMidpoint w n i := by
    unfold xMidAt segMidpoint segLeftEdge
    rw [show (0.5 : ℝ) = 1 / 2 by norm_num]
    ring
  refine ⟨?_, rfl, ?_, ?_, ?_, ?_⟩
  · unfold leftVerticesOfSlat
    rw [hL, hM]
  · rw [show 3 * 2 = 6 * 1 by norm_num]
    exact length_flatMap_range (leftVerticesOfSlat 2 h 1 a) 6 1 fun _ => rfl
  · rw [show 3 * 2 = 6 * 1 by norm_num]
    exact length_flatMap_range (rightVerticesOfSlat 2 h 1 a) 6 1 fun _ => rfl
  · unfold xLeftAt
    norm_num
  · unfold xRightAt
    norm_num

/-- Witness for C9 at `(width, height, slats, angle) = (2, 1.5, 1, 45)`,
segment `i = 0`. -/
theorem left_face_triangles_match_spec_witness :
    xLeftAt 2 1 0 = -1 ∧ xRightAt 2 1 0 = 1 ∧
    (createZigzagGeometry 2 (1.5 : ℝ) 1 45).leftVertices.length = 3 * 2 := by
  have hthm := left_face_triangles_match_spec 2 1.5 1 45 (by norm_num) (by norm_num)
    (by norm_num) (by norm_num) (by norm_num) 0 (by norm_num)
  exact ⟨hthm.2.2.2.2.1, hthm.2.2.2.2.2, hthm.2.2.1⟩

/-- Counterexample to claim C3: already for one slat, the left-face UV set
spans only `[0, 1/2]` — the point `3/4` lies in `[0,1]` but in no left-face
u-interval, so the union of left-face u-intervals is not `[0,1]`. -/
theorem left_uv_union_not_full :
    (3 / 4 : ℝ) ∈ Set.Icc (0 : ℝ) 1 ∧
    (3 / 4 : ℝ) ∉ (⋃ i ∈ Finset.range 1, leftFaceUSpan 1 i) ∧
    (⋃ i ∈ Finset.range 1, leftFaceUSpan 1 i) ≠ Set.Icc (0 : ℝ) 1 := by
  have hnot : (3 / 4 : ℝ) ∉ (⋃ i ∈ Finset.range 1, leftFaceUSpan 1 i) := by
    intro hmem
    rcases Set.mem_iUnion₂.1 hmem with ⟨i, hi, hx⟩
    rw [Finset.mem_range, Nat.lt_one_iff] at hi
    subst hi
    unfold leftFaceUSpan uLeftAt uMidAt at hx
    rcases hx with ⟨h1, h2⟩
    norm_num at h2
  refine ⟨by norm_num, hnot, ?_⟩
  intro hEq
  apply hnot
  rw [hEq]
  norm_num

/-- Claim C3 (amended): the left-face u-intervals alone do not cover `[0,1]`
(each slat's left interval stops at its midpoint `uMid`); instead the left-
and right-face u-intervals together cover exactly `[0,1]`, a slat's left and
right intervals meet only at the shared endpoint `uMid`, and distinct
left-face intervals are pairwise disjoint (no overlaps). -/
theorem uv_spans_partition_unit (n : ℕ) (hn : 1 ≤ n) :
    (⋃ i ∈ Finset.range n, leftFaceUSpan n i ∪ rightFaceUSpan n i) = Set.Icc (0 : ℝ) 1 ∧
    (∀ i, i < n → leftFaceUSpan n i ∩ rightFaceUSpan n i = {uMidAt n i}) ∧
    (∀ i j, i ≠ j → leftFaceUSpan n i ∩ leftFaceUSpan n j = ∅) := by
  refine ⟨?_, ?_, ?_⟩
  · calc (⋃ i ∈ Finset.range n, leftFaceUSpan n i ∪ rightFaceUSpan n i)
        = ⋃ i ∈ Finset.range n, Set.Icc ((i : ℝ) / (n : ℝ)) (((i : ℝ) + 1) / (n : ℝ)) := by
          apply Set.iUnion₂_congr
          intro i _
          exact spans_union_eq_Icc hn i
      _ = Set.Icc (0 : ℝ) 1 := biUnion_uniform_Icc n hn
  · intro i _
    unfold leftFaceUSpan rightFaceUSpan
    rw [Set.Icc_inter_Icc, max_eq_right (uLeftAt_le_uMidAt hn i),
      min_eq_left (uMidAt_le_uRightAt hn i), Set.Icc_self]
  · intro i j hij
    rcases hij.lt_or_lt with h | h
    · exact leftFaceUSpans_disjoint hn h
    · rw [Set.inter_comm]
      exact leftFaceUSpans_disjoint hn h

/-- Witness for the amended C3 at `n = 1`. -/
theorem uv_spans_partition_unit_witness :
    (⋃ i ∈ Finset.range 1, leftFaceUSpan 1 i ∪ rightFaceUSpan 1 i) = Set.Icc (0 : ℝ) 1 :=
  (uv_spans_partition_unit 1 (by norm_num)).1

end Lenticular
